import Mathlib

/-!
Verification of the MongoDB CRUD demonstration script
(`connection.py` + `main_app.py`).

The script is a thin wrapper: each function of `main_app.py` forwards its
arguments to a pymongo driver call on the shared collection handle
`mongodb_collection` and prints the result.  The driver (and the document
store behind it) is not part of the repository sources, so the store
semantics below are modelled from the spec: a collection is an
insertion-ordered list of documents, a document is a mapping from string
field names to values, queries are equality conditions on fields, and
identifiers are assigned by the store on insert.

Each Python operation becomes a state-passing function
`input → DBState → output × DBState` (printing is modelled by returning the
value that would be printed).
-/

namespace MongoDemo

/-- A field value of a document: the primitive types the demonstration
script stores (strings, integers, booleans), the null value, and the
store-assigned object identifiers. -/
inductive Value where
  | vnull : Value
  | vint : Int → Value
  | vstr : String → Value
  | vid : Nat → Value
  | vbool : Bool → Value
deriving DecidableEq, Repr

/-- A document: an association list from field names to values, as the
Python `Dict[str, Any]` documents of `main_app.py`. -/
abbrev Doc : Type := List (String × Value)

/-- Look up a field of a document (first occurrence of the key). -/
def Doc.getField (d : Doc) (k : String) : Option Value :=
  List.lookup k d

/-- An equality query: a mapping from field names to required values,
as the `Dict[str, Any]` queries of `main_app.py`.  The empty query
matches every document. -/
abbrev Query : Type := List (String × Value)

/-- Modelled from the spec: a document matches a query when every field
mentioned by the query is present in the document with the required value
("a mapping from field name to a match condition, used to filter
Documents; absence of constraints matches all Documents"). -/
def Query.matches (q : Query) (d : Doc) : Bool :=
  q.all fun p => Doc.getField d p.1 == some p.2

/-- The state behind the shared handle `mongodb_collection` of
`connection.py`: the server's database names, the current database's
collection names, the documents of the selected collection in insertion
order, and the store's counter for generating fresh identifiers. -/
structure DBState where
  databaseNames : List String
  collectionNames : List String
  docs : List Doc
  nextId : Nat
deriving DecidableEq, Repr

/-- `check_database_exists` (main_app.py lines 7–20): membership test of
the database name in the client's database list. -/
def check_database_exists (dbName : String) (st : DBState) : Bool × DBState :=
  (st.databaseNames.contains dbName, st)

/-- `check_collection_exists` (main_app.py lines 24–37): membership test
of the collection name in the database's collection list. -/
def check_collection_exists (collName : String) (st : DBState) : Bool × DBState :=
  (st.collectionNames.contains collName, st)

/-- Modelled from the spec: the store's single-document insert behind
`insert_one`.  The document is appended to the collection in insertion
order; an identifier is assigned implicitly (fresh, from the store's
counter) when the document carries none, and the explicitly supplied one
is used otherwise ("identified by an implicitly or explicitly assigned
unique identifier field").  Returns the assigned identifier. -/
def insertOneCore (d : Doc) (st : DBState) : Value × DBState :=
  match Doc.getField d "_id" with
  | some i => (i, { st with docs := st.docs ++ [d] })
  | none =>
      (Value.vid st.nextId,
       { st with
          docs := st.docs ++ [d ++ [("_id", Value.vid st.nextId)]],
          nextId := st.nextId + 1 })

/-- `insert_single_document` (main_app.py lines 41–51): inserts one
document and reports the assigned identifier `result.inserted_id`. -/
def insert_single_document (d : Doc) (st : DBState) : Value × DBState :=
  insertOneCore d st

/-- Modelled from the spec: the store's ordered batch insert behind
`insert_many`, inserting the documents one after the other in the given
order and collecting the assigned identifiers in the same order. -/
def insertManyCore : List Doc → DBState → List Value × DBState
  | [], st => ([], st)
  | d :: ds, st =>
      ((insertOneCore d st).1 :: (insertManyCore ds (insertOneCore d st).2).1,
       (insertManyCore ds (insertOneCore d st).2).2)

/-- `insert_multiple_documents` (main_app.py lines 55–65): inserts a list
of documents and reports `result.inserted_ids`.  Modelled from the spec:
the underlying `insert_many` driver call is not in the sources; it rejects
an empty document list with an error (`none` here), and otherwise inserts
the documents in the given order. -/
def insert_multiple_documents (ds : List Doc) (st : DBState) :
    Option (List Value × DBState) :=
  if ds.isEmpty then none else some (insertManyCore ds st)

/-- `find_one_document` (main_app.py lines 69–79): `find_one(query)`
returns the first matching document in store-native (insertion) order, or
`None` when no document matches. -/
def find_one_document (q : Query) (st : DBState) : Option Doc × DBState :=
  (st.docs.find? (fun d => Query.matches q d), st)

/-- `find_all_documents` (main_app.py lines 83–91): `find()` streams every
document of the collection in store-native (insertion) order. -/
def find_all_documents (st : DBState) : List Doc × DBState :=
  (st.docs, st)

/-- `find_documents_with_condition` (main_app.py lines 95–107):
`find(query)` streams the matching documents in store-native order. -/
def find_documents_with_condition (q : Query) (st : DBState) :
    List Doc × DBState :=
  (st.docs.filter (fun d => Query.matches q d), st)

/-- Rank of a value's type in the cross-type sort order of the store
(null before numbers before strings before identifiers before booleans). -/
def Value.rank : Value → Nat
  | .vnull => 0
  | .vint _ => 1
  | .vstr _ => 2
  | .vid _ => 3
  | .vbool _ => 4

/-- Modelled from the spec: the store's total comparison on field values
used by `sort` — values of different types compare by type rank, values
of the same type by their natural order. -/
def Value.le : Value → Value → Bool
  | .vnull, .vnull => true
  | .vint m, .vint n => m ≤ n
  | .vstr s, .vstr t => s ≤ t
  | .vid m, .vid n => m ≤ n
  | .vbool x, .vbool y => !x || y
  | a, b => Value.rank a < Value.rank b

/-- The sort key of a document for a field: the field's value, with a
missing field sorting as the null value. -/
def sortKey (f : String) (d : Doc) : Value :=
  (Doc.getField d f).getD Value.vnull

/-- `sort_documents_by_field` (main_app.py lines 111–123):
`find().sort(field_name, order)` streams all documents ordered by the
field, ascending for `order = 1` (the Python default) and descending for
`order = -1`.  Modelled from the spec: the store sorts by the field's
value under the total comparison `Value.le`. -/
def sort_documents_by_field (f : String) (st : DBState) (order : Int := 1) :
    List Doc × DBState :=
  if order = -1 then
    (st.docs.insertionSort (fun d1 d2 => Value.le (sortKey f d2) (sortKey f d1)), st)
  else
    (st.docs.insertionSort (fun d1 d2 => Value.le (sortKey f d1) (sortKey f d2)), st)

/-- Set one field of a document to a value: replace the first occurrence
of the field in place when the field is present, append the field
otherwise. -/
def setField : Doc → String → Value → Doc
  | [], k, v => [(k, v)]
  | p :: rest, k, v =>
      if p.1 == k then (k, v) :: rest else p :: setField rest k v

/-- Modelled from the spec: apply an update specification in
update-operator form (the field assignments under a `$set` operator) to a
document, setting each listed field in turn. -/
def applySet (s : List (String × Value)) (d : Doc) : Doc :=
  s.foldl (fun d p => setField d p.1 p.2) d

/-- Modelled from the spec: the store's `update_one` on the document list
— only the first document matching the query is updated.  Returns the
updated list, or `none` when no document matches. -/
def updateFirst (q : Query) (s : List (String × Value)) :
    List Doc → Option (List Doc)
  | [] => none
  | d :: ds =>
      if Query.matches q d then some (applySet s d :: ds)
      else (updateFirst q s ds).map (fun ds1 => d :: ds1)

/-- `update_document` (main_app.py lines 128–139): `update_one(query,
new_values)` with `new_values` in update-operator (`$set`) form updates
the first matching document and reports `result.modified_count` — 1 when
a document matched, 0 when none did. -/
def update_document (q : Query) (s : List (String × Value)) (st : DBState) :
    Nat × DBState :=
  match updateFirst q s st.docs with
  | some ds => (1, { st with docs := ds })
  | none => (0, st)

/-- Modelled from the spec: the store's `delete_one` on the document list
— only the first document matching the query is removed.  Returns the
remaining list, or `none` when no document matches. -/
def deleteFirst (q : Query) : List Doc → Option (List Doc)
  | [] => none
  | d :: ds =>
      if Query.matches q d then some ds
      else (deleteFirst q ds).map (fun ds1 => d :: ds1)

/-- `delete_document` (main_app.py lines 143–153): `delete_one(query)`
removes the first matching document and reports `result.deleted_count` —
1 when a document matched, 0 when none did. -/
def delete_document (q : Query) (st : DBState) : Nat × DBState :=
  match deleteFirst q st.docs with
  | some ds => (1, { st with docs := ds })
  | none => (0, st)

/-- `limit_results` (main_app.py lines 157–168): `find().limit(limit)`
streams the first `limit` documents in store-native (insertion) order. -/
def limit_results (limit : Nat) (st : DBState) : List Doc × DBState :=
  (st.docs.take limit, st)

/-! ### Helper lemmas -/

/-- A singleton equality query matches a document exactly when the
document's field holds the required value. -/
theorem matches_singleton (f : String) (v : Value) (d : Doc) :
    Query.matches [(f, v)] d = (Doc.getField d f == some v) := by
  simp [Query.matches]

/-- `find?` skips a leading block in which no element satisfies the
predicate. -/
theorem find?_append_of_forall_false {α : Type} {p : α → Bool}
    {l1 l2 : List α} (h : ∀ x ∈ l1, p x = false) :
    (l1 ++ l2).find? p = l2.find? p := by
  rw [List.find?_append]
  have h1 : l1.find? p = none := List.find?_eq_none.mpr (by simpa using h)
  rw [h1, Option.none_or]

/-- Looking up a field in a document extended on the right finds the
extension exactly when the field is absent from the original part. -/
theorem getField_append_right (d : Doc) (k : String) (v : Value)
    (h : Doc.getField d k = none) :
    Doc.getField (d ++ [(k, v)]) k = some v := by
  unfold Doc.getField at h ⊢
  rw [List.lookup_append, h, Option.none_or]
  simp [List.lookup]

/-- Looking up a present field is unaffected by extending the document on
the right. -/
theorem getField_append_left (d : Doc) (e : Doc) (k : String) (v : Value)
    (h : Doc.getField d k = some v) :
    Doc.getField (d ++ e) k = some v := by
  unfold Doc.getField at h ⊢
  rw [List.lookup_append, h]
  rfl

/-! ### C1: insert then find by the assigned identifier -/

/-- C1.  Inserting a document `d` that carries no explicit identifier into
a state whose documents do not already use the identifier the store will
assign, and then querying by the assigned identifier, returns exactly the
inserted document — `d` together with its assigned identifier field — and
that document agrees with `d` on every field of `d`. -/
theorem insert_then_find_by_id (st : DBState) (d : Doc)
    (hid : Doc.getField d "_id" = none)
    (hfresh : ∀ e ∈ st.docs,
      Doc.getField e "_id" ≠ some (Value.vid st.nextId)) :
    (find_one_document [("_id", (insert_single_document d st).1)]
        (insert_single_document d st).2).1
      = some (d ++ [("_id", (insert_single_document d st).1)])
    ∧ ∀ k v, Doc.getField d k = some v →
        Doc.getField (d ++ [("_id", (insert_single_document d st).1)]) k
          = some v := by
  have hins : insert_single_document d st
      = (Value.vid st.nextId,
         { st with
            docs := st.docs ++ [d ++ [("_id", Value.vid st.nextId)]],
            nextId := st.nextId + 1 }) := by
    unfold insert_single_document insertOneCore
    rw [hid]
  rw [hins]
  constructor
  · show (List.find? _ (st.docs ++ [d ++ [("_id", Value.vid st.nextId)]])) = _
    rw [find?_append_of_forall_false (fun e he => ?_)]
    · have hd : Doc.getField (d ++ [("_id", Value.vid st.nextId)]) "_id"
          = some (Value.vid st.nextId) := getField_append_right d _ _ hid
      simp [matches_singleton, hd, List.find?]
    · rw [matches_singleton]
      simpa using hfresh e he
  · intro k v hkv
    exact getField_append_left d _ k v hkv

/-- Witness for C1 at a concrete input: the initial empty collection and
the document `{"name": "John", "address": "Highway 37"}` of the script. -/
theorem insert_then_find_by_id_witness :
    (find_one_document
        [("_id",
          (insert_single_document
            [("name", Value.vstr "John"), ("address", Value.vstr "Highway 37")]
            ⟨["my_first_database"], ["my_first_collection"], [], 0⟩).1)]
        (insert_single_document
            [("name", Value.vstr "John"), ("address", Value.vstr "Highway 37")]
            ⟨["my_first_database"], ["my_first_collection"], [], 0⟩).2).1
      = some ([("name", Value.vstr "John"), ("address", Value.vstr "Highway 37")]
          ++ [("_id",
              (insert_single_document
                [("name", Value.vstr "John"), ("address", Value.vstr "Highway 37")]
                ⟨["my_first_database"], ["my_first_collection"], [], 0⟩).1)])
    ∧ ∀ k v,
        Doc.getField
          [("name", Value.vstr "John"), ("address", Value.vstr "Highway 37")] k
          = some v →
        Doc.getField
          ([("name", Value.vstr "John"), ("address", Value.vstr "Highway 37")]
            ++ [("_id",
                (insert_single_document
                  [("name", Value.vstr "John"), ("address", Value.vstr "Highway 37")]
                  ⟨["my_first_database"], ["my_first_collection"], [], 0⟩).1)]) k
          = some v :=
  insert_then_find_by_id
    ⟨["my_first_database"], ["my_first_collection"], [], 0⟩
    [("name", Value.vstr "John"), ("address", Value.vstr "Highway 37")]
    (by decide) (by simp)

/-! ### C2 and C10: batch insert -/

/-- Batch insert of documents without explicit identifiers: one identifier
per document, and the documents are appended in the given order, the i-th
assigned identifier attached to the i-th input document. -/
theorem insertManyCore_spec (ds : List Doc) (st : DBState)
    (h : ∀ d ∈ ds, Doc.getField d "_id" = none) :
    (insertManyCore ds st).1.length = ds.length
    ∧ (insertManyCore ds st).2.docs
        = st.docs
          ++ List.zipWith (fun d i => d ++ [("_id", i)]) ds
              (insertManyCore ds st).1 := by
  induction ds generalizing st with
  | nil => simp [insertManyCore]
  | cons d ds ih =>
      have hd : Doc.getField d "_id" = none := h d (List.mem_cons_self d ds)
      have hds : ∀ e ∈ ds, Doc.getField e "_id" = none :=
        fun e he => h e (List.mem_cons_of_mem d he)
      have hone : insertOneCore d st
          = (Value.vid st.nextId,
             { st with
                docs := st.docs ++ [d ++ [("_id", Value.vid st.nextId)]],
                nextId := st.nextId + 1 }) := by
        unfold insertOneCore
        rw [hd]
      have hmany : insertManyCore (d :: ds) st
          = (Value.vid st.nextId
              :: (insertManyCore ds
                  { st with
                     docs := st.docs ++ [d ++ [("_id", Value.vid st.nextId)]],
                     nextId := st.nextId + 1 }).1,
             (insertManyCore ds
                  { st with
                     docs := st.docs ++ [d ++ [("_id", Value.vid st.nextId)]],
                     nextId := st.nextId + 1 }).2) := by
        rw [insertManyCore, hone]
      rw [hmany]
      have := ih { st with
          docs := st.docs ++ [d ++ [("_id", Value.vid st.nextId)]],
          nextId := st.nextId + 1 } hds
      refine ⟨by simpa using this.1, ?_⟩
      rw [this.2]
      simp [List.append_assoc]

/-- C2 (amended).  For every non-empty list of documents carrying no
explicit identifiers, the batch insert succeeds, produces exactly as many
generated identifiers as input documents, and appends the documents to the
collection in the given order with the i-th identifier attached to the
i-th input document. -/
theorem insert_many_ordered_ids (ds : List Doc) (st : DBState)
    (hne : ds ≠ [])
    (h : ∀ d ∈ ds, Doc.getField d "_id" = none) :
    ∃ ids st1,
      insert_multiple_documents ds st = some (ids, st1)
      ∧ ids.length = ds.length
      ∧ st1.docs
          = st.docs ++ List.zipWith (fun d i => d ++ [("_id", i)]) ds ids := by
  refine ⟨(insertManyCore ds st).1, (insertManyCore ds st).2, ?_, ?_, ?_⟩
  · unfold insert_multiple_documents
    rw [if_neg (by simpa using hne)]
  · exact (insertManyCore_spec ds st h).1
  · exact (insertManyCore_spec ds st h).2

/-- Witness for C2 (amended) at a concrete input: two of the script's
documents inserted into the empty collection. -/
theorem insert_many_ordered_ids_witness :
    ∃ ids st1,
      insert_multiple_documents
          [[("name", Value.vstr "Amy"), ("address", Value.vstr "Apple st 652")],
           [("name", Value.vstr "Hannah"), ("address", Value.vstr "Mountain 21")]]
          ⟨["my_first_database"], ["my_first_collection"], [], 0⟩
        = some (ids, st1)
      ∧ ids.length
          = [[("name", Value.vstr "Amy"), ("address", Value.vstr "Apple st 652")],
             [("name", Value.vstr "Hannah"), ("address", Value.vstr "Mountain 21")]].length
      ∧ st1.docs
          = (⟨["my_first_database"], ["my_first_collection"], [], 0⟩ : DBState).docs
            ++ List.zipWith (fun d i => d ++ [("_id", i)])
                [[("name", Value.vstr "Amy"), ("address", Value.vstr "Apple st 652")],
                 [("name", Value.vstr "Hannah"), ("address", Value.vstr "Mountain 21")]]
                ids :=
  insert_many_ordered_ids
    [[("name", Value.vstr "Amy"), ("address", Value.vstr "Apple st 652")],
     [("name", Value.vstr "Hannah"), ("address", Value.vstr "Mountain 21")]]
    ⟨["my_first_database"], ["my_first_collection"], [], 0⟩
    (by decide) (by decide)

/-- Counterexample to C2 as stated: at the empty input list the batch
insert does not produce a (0-element) identifier list — it errors. -/
theorem insert_many_empty_fails :
    ¬ ∃ ids st1,
        insert_multiple_documents ([] : List Doc)
            ⟨["my_first_database"], ["my_first_collection"], [], 0⟩
          = some (ids, st1)
        ∧ ids.length = 0 := by
  rintro ⟨ids, st1, hsome, -⟩
  simp [insert_multiple_documents] at hsome

/-- C10.  Batch insert with an empty document list errors (the underlying
`insert_many` call rejects empty input) for every collection state: it
never reports zero generated identifiers. -/
theorem insert_many_empty_rejected (st : DBState) :
    insert_multiple_documents ([] : List Doc) st = none := by
  simp [insert_multiple_documents]

/-! ### C3: find with condition returns exactly the matching subset -/

/-- C3.  The condition query returns exactly the matching documents: a
document is in the result exactly when it is in the collection and
matches, and for an equality query on a single field, exactly when it is
in the collection and its field holds the queried value. -/
theorem find_with_condition_exact (q : Query) (st : DBState) :
    (∀ d, d ∈ (find_documents_with_condition q st).1
        ↔ d ∈ st.docs ∧ Query.matches q d = true)
    ∧ ∀ (f : String) (v : Value) (d : Doc),
        d ∈ (find_documents_with_condition [(f, v)] st).1
          ↔ d ∈ st.docs ∧ Doc.getField d f = some v := by
  constructor
  · intro d
    simp [find_documents_with_condition, List.mem_filter]
  · intro f v d
    simp [find_documents_with_condition, List.mem_filter, matches_singleton]

/-! ### C4: sorting by a field -/

/-- The value comparison of the store is total. -/
theorem value_le_total (a b : Value) :
    Value.le a b = true ∨ Value.le b a = true := by
  cases a <;> cases b <;>
    simp only [Value.le, Value.rank, decide_eq_true_eq] <;>
    first
      | decide
      | omega
      | exact le_total ..
      | (rename_i x y; revert x y; decide)

/-- The value comparison of the store is transitive. -/
theorem value_le_trans (a b c : Value) (hab : Value.le a b = true)
    (hbc : Value.le b c = true) : Value.le a c = true := by
  cases a <;> cases b <;> cases c <;>
    simp only [Value.le, Value.rank, decide_eq_true_eq] at hab hbc ⊢ <;>
    first
      | trivial
      | omega
      | exact le_trans hab hbc
      | (rename_i x y z; revert x y z; decide)

/-- C4.  Sorting ascending (order 1, the Python default) yields the
documents with non-decreasing values of the sort field; sorting
descending (order −1) yields them with non-increasing values; both
directions yield a permutation of the whole collection. -/
theorem sort_by_field_ordered (f : String) (st : DBState) :
    List.Sorted (fun a b : Value => Value.le a b = true)
        ((sort_documents_by_field f st 1).1.map (sortKey f))
    ∧ List.Sorted (fun a b : Value => Value.le b a = true)
        ((sort_documents_by_field f st (-1)).1.map (sortKey f))
    ∧ ((sort_documents_by_field f st 1).1.Perm st.docs)
    ∧ ((sort_documents_by_field f st (-1)).1.Perm st.docs) := by
  have hasc : (sort_documents_by_field f st 1).1
      = st.docs.insertionSort
          (fun d1 d2 => Value.le (sortKey f d1) (sortKey f d2) = true) := by
    simp [sort_documents_by_field]
  have hdesc : (sort_documents_by_field f st (-1)).1
      = st.docs.insertionSort
          (fun d1 d2 => Value.le (sortKey f d2) (sortKey f d1) = true) := by
    simp [sort_documents_by_field]
  refine ⟨?_, ?_, ?_, ?_⟩
  · rw [hasc]
    rw [List.Sorted, List.pairwise_map]
    exact @List.sorted_insertionSort Doc
      (fun d1 d2 => Value.le (sortKey f d1) (sortKey f d2) = true) _
      ⟨fun d1 d2 => value_le_total (sortKey f d1) (sortKey f d2)⟩
      ⟨fun d1 d2 d3 => value_le_trans (sortKey f d1) (sortKey f d2) (sortKey f d3)⟩
      st.docs
  · rw [hdesc]
    rw [List.Sorted, List.pairwise_map]
    exact @List.sorted_insertionSort Doc
      (fun d1 d2 => Value.le (sortKey f d2) (sortKey f d1) = true) _
      ⟨fun d1 d2 => value_le_total (sortKey f d2) (sortKey f d1)⟩
      ⟨fun d1 d2 d3 h12 h23 =>
        value_le_trans (sortKey f d3) (sortKey f d2) (sortKey f d1) h23 h12⟩
      st.docs
  · rw [hasc]
    exact List.perm_insertionSort _ st.docs
  · rw [hdesc]
    exact List.perm_insertionSort _ st.docs

/-! ### Field-update lemmas -/

/-- Looking up a field after `setField`: the set field maps to the new
value, other fields are unaffected. -/
theorem getField_setField (d : Doc) (k0 : String) (v : Value) (k : String) :
    Doc.getField (setField d k0 v) k
      = if k0 == k then some v else Doc.getField d k := by
  induction d with
  | nil =>
      by_cases h : k0 = k
      · subst h
        simp [setField, Doc.getField, List.lookup]
      · have e1 : (k0 == k) = false := beq_eq_false_iff_ne.mpr h
        have e2 : (k == k0) = false :=
          beq_eq_false_iff_ne.mpr fun hx => h hx.symm
        simp [setField, Doc.getField, List.lookup, e1, e2]
  | cons p rest ih =>
      obtain ⟨a, b⟩ := p
      by_cases h1 : a = k0
      · subst h1
        simp only [setField, beq_self_eq_true, if_true]
        by_cases h2 : a = k
        · subst h2
          simp [Doc.getField, List.lookup]
        · have e1 : (a == k) = false := beq_eq_false_iff_ne.mpr h2
          have e2 : (k == a) = false :=
            beq_eq_false_iff_ne.mpr fun hx => h2 hx.symm
          simp [Doc.getField, List.lookup, e1, e2]
      · have e1 : (a == k0) = false := beq_eq_false_iff_ne.mpr h1
        simp only [setField, e1]
        rw [if_neg (by simp)]
        by_cases h2 : k = a
        · subst h2
          have e3 : (k0 == k) = false :=
            beq_eq_false_iff_ne.mpr fun hx => h1 (by simp [hx])
          simp [Doc.getField, List.lookup, e3]
        · have e4 : (k == a) = false := beq_eq_false_iff_ne.mpr h2
          have hg : Doc.getField ((a, b) :: rest) k = Doc.getField rest k := by
            simp [Doc.getField, List.lookup, e4]
          have hg2 : Doc.getField ((a, b) :: setField rest k0 v) k
              = Doc.getField (setField rest k0 v) k := by
            simp [Doc.getField, List.lookup, e4]
          rw [hg, hg2, ih]

/-- Looking up a field after applying a `$set` specification: the last
assignment of the specification to the field wins, and fields the
specification does not mention are unaffected. -/
theorem getField_applySet (s : List (String × Value)) (d : Doc) (k : String) :
    Doc.getField (applySet s d) k
      = (List.lookup k s.reverse).or (Doc.getField d k) := by
  induction s generalizing d with
  | nil => simp [applySet, List.lookup]
  | cons p s ih =>
      show Doc.getField (applySet s (setField d p.1 p.2)) k = _
      rw [ih, getField_setField]
      rw [List.reverse_cons, List.lookup_append]
      by_cases hk : p.1 = k
      · have hkb : (p.1 == k) = true := beq_iff_eq.mpr hk
        simp only [hkb, if_true]
        have e : List.lookup k [p] = some p.2 := by
          obtain ⟨a, b⟩ := p
          have e2 : (k == a) = true := beq_iff_eq.mpr (by simpa using hk.symm)
          simp [List.lookup, e2]
        rw [e]
        cases List.lookup k s.reverse <;> rfl
      · have hkb : (p.1 == k) = false := beq_eq_false_iff_ne.mpr hk
        simp only [hkb, if_false]
        have e : List.lookup k [p] = none := by
          obtain ⟨a, b⟩ := p
          have e2 : (k == a) = false :=
            beq_eq_false_iff_ne.mpr fun h => hk (by simpa using h.symm)
          simp [List.lookup, e2]
        rw [e]
        cases List.lookup k s.reverse <;> rfl

/-- A field not mentioned by a `$set` specification keeps its value. -/
theorem getField_applySet_of_not_mentioned (s : List (String × Value))
    (d : Doc) (k : String) (h : k ∉ s.map Prod.fst) :
    Doc.getField (applySet s d) k = Doc.getField d k := by
  rw [getField_applySet]
  have e : List.lookup k s.reverse = none := by
    rw [List.lookup_eq_none_iff]
    intro p hp
    have hps : p ∈ s := List.mem_reverse.mp hp
    have hk : p.1 ∈ s.map Prod.fst := List.mem_map_of_mem Prod.fst hps
    have hne : k ≠ p.1 := fun hkk => h (hkk ▸ hk)
    simpa using hne
  rw [e]
  cases Doc.getField d k <;> rfl

/-! ### First-match update and delete lemmas -/

/-- `updateFirst` finds nothing when no document matches. -/
theorem updateFirst_eq_none (q : Query) (s : List (String × Value))
    (l : List Doc) (h : ∀ e ∈ l, Query.matches q e = false) :
    updateFirst q s l = none := by
  induction l with
  | nil => rfl
  | cons d ds ih =>
      rw [updateFirst,
        if_neg (by simp [h d (List.mem_cons_self d ds)]),
        ih (fun e he => h e (List.mem_cons_of_mem d he))]
      rfl

/-- `updateFirst` updates exactly the first matching document. -/
theorem updateFirst_first (q : Query) (s : List (String × Value))
    (pre : List Doc) (d : Doc) (post : List Doc)
    (hpre : ∀ e ∈ pre, Query.matches q e = false)
    (hd : Query.matches q d = true) :
    updateFirst q s (pre ++ d :: post) = some (pre ++ applySet s d :: post) := by
  induction pre with
  | nil =>
      rw [List.nil_append, List.nil_append, updateFirst, if_pos hd]
  | cons e pre ih =>
      rw [List.cons_append, List.cons_append, updateFirst,
        if_neg (by simp [hpre e (List.mem_cons_self e pre)]),
        ih (fun x hx => hpre x (List.mem_cons_of_mem e hx))]
      rfl

/-- `deleteFirst` finds nothing when no document matches. -/
theorem deleteFirst_eq_none (q : Query) (l : List Doc)
    (h : ∀ e ∈ l, Query.matches q e = false) :
    deleteFirst q l = none := by
  induction l with
  | nil => rfl
  | cons d ds ih =>
      rw [deleteFirst,
        if_neg (by simp [h d (List.mem_cons_self d ds)]),
        ih (fun e he => h e (List.mem_cons_of_mem d he))]
      rfl

/-- `deleteFirst` removes exactly the first matching document. -/
theorem deleteFirst_first (q : Query) (pre : List Doc) (d : Doc)
    (post : List Doc)
    (hpre : ∀ e ∈ pre, Query.matches q e = false)
    (hd : Query.matches q d = true) :
    deleteFirst q (pre ++ d :: post) = some (pre ++ post) := by
  induction pre with
  | nil =>
      rw [List.nil_append, List.nil_append, deleteFirst, if_pos hd]
  | cons e pre ih =>
      rw [List.cons_append, List.cons_append, deleteFirst,
        if_neg (by simp [hpre e (List.mem_cons_self e pre)]),
        ih (fun x hx => hpre x (List.mem_cons_of_mem e hx))]
      rfl

/-! ### C5: update of the first matching document -/

/-- C5.  When no document matches the query, the update reports zero
modified documents and leaves the collection unchanged.  When at least
one document matches — the collection splits as `pre ++ d :: post` with
`d` its first match — the update reports a modified count of 1 and
modifies only `d`, replacing it by `applySet s d`; the updated document
reflects the new field values (the last assignment of the update
specification to a field wins); and re-fetching by `d`'s identifier
returns exactly the updated document, provided the specification does not
touch the identifier field and no earlier document carries the same
identifier. -/
theorem update_document_spec (q : Query) (s : List (String × Value))
    (st : DBState) :
    ((∀ e ∈ st.docs, Query.matches q e = false) →
      update_document q s st = (0, st))
    ∧ ∀ pre d post,
        st.docs = pre ++ d :: post →
        (∀ e ∈ pre, Query.matches q e = false) →
        Query.matches q d = true →
        update_document q s st
            = (1, { st with docs := pre ++ applySet s d :: post })
        ∧ (∀ k v, List.lookup k s.reverse = some v →
            Doc.getField (applySet s d) k = some v)
        ∧ ∀ i : Value,
            Doc.getField d "_id" = some i →
            "_id" ∉ s.map Prod.fst →
            (∀ e ∈ pre, Doc.getField e "_id" ≠ some i) →
            (find_one_document [("_id", i)]
                (update_document q s st).2).1 = some (applySet s d) := by
  constructor
  · intro h
    unfold update_document
    rw [updateFirst_eq_none q s st.docs h]
  · intro pre d post hsplit hpre hd
    have hupd : update_document q s st
        = (1, { st with docs := pre ++ applySet s d :: post }) := by
      unfold update_document
      rw [hsplit, updateFirst_first q s pre d post hpre hd]
    refine ⟨hupd, ?_, ?_⟩
    · intro k v hk
      rw [getField_applySet, hk]
      rfl
    · intro i hi hnotid hpreid
      rw [hupd]
      have hid : Doc.getField (applySet s d) "_id" = some i := by
        rw [getField_applySet_of_not_mentioned s d "_id" hnotid]
        exact hi
      show List.find? (fun e => Query.matches [(("_id" : String), i)] e)
          (pre ++ applySet s d :: post) = some (applySet s d)
      rw [find?_append_of_forall_false (fun e he => ?_)]
      · rw [List.find?_cons_of_pos]
        rw [matches_singleton, hid]
        simp
      · rw [matches_singleton]
        simpa using hpreid e he

/-- Witness for C5 at a concrete input: a two-document collection whose
second document is the first (and only) match of the query
`{"name": "John"}`, updated with `{"$set": {"address": "Canyon 123"}}`. -/
theorem update_document_spec_witness :
    update_document [("name", Value.vstr "John")]
        [("address", Value.vstr "Canyon 123")]
        ⟨["my_first_database"], ["my_first_collection"],
         [[("name", Value.vstr "Amy"), ("_id", Value.vid 0)],
          [("name", Value.vstr "John"), ("address", Value.vstr "Highway 37"),
           ("_id", Value.vid 1)]], 2⟩
        = (1,
           { databaseNames := ["my_first_database"],
             collectionNames := ["my_first_collection"],
             docs := [[("name", Value.vstr "Amy"), ("_id", Value.vid 0)]]
               ++ applySet [("address", Value.vstr "Canyon 123")]
                    [("name", Value.vstr "John"),
                     ("address", Value.vstr "Highway 37"),
                     ("_id", Value.vid 1)] :: [],
             nextId := 2 })
    ∧ (∀ k v,
        List.lookup k [("address", Value.vstr "Canyon 123")].reverse = some v →
        Doc.getField
            (applySet [("address", Value.vstr "Canyon 123")]
              [("name", Value.vstr "John"),
               ("address", Value.vstr "Highway 37"),
               ("_id", Value.vid 1)]) k = some v)
    ∧ ∀ i : Value,
        Doc.getField
            [("name", Value.vstr "John"), ("address", Value.vstr "Highway 37"),
             ("_id", Value.vid 1)] "_id" = some i →
        "_id" ∉ [("address", Value.vstr "Canyon 123")].map Prod.fst →
        (∀ e ∈ [[("name", Value.vstr "Amy"), ("_id", Value.vid 0)]],
          Doc.getField e "_id" ≠ some i) →
        (find_one_document [("_id", i)]
            (update_document [("name", Value.vstr "John")]
              [("address", Value.vstr "Canyon 123")]
              ⟨["my_first_database"], ["my_first_collection"],
               [[("name", Value.vstr "Amy"), ("_id", Value.vid 0)],
                [("name", Value.vstr "John"),
                 ("address", Value.vstr "Highway 37"),
                 ("_id", Value.vid 1)]], 2⟩).2).1
          = some (applySet [("address", Value.vstr "Canyon 123")]
              [("name", Value.vstr "John"),
               ("address", Value.vstr "Highway 37"),
               ("_id", Value.vid 1)]) :=
  (update_document_spec [("name", Value.vstr "John")]
      [("address", Value.vstr "Canyon 123")]
      ⟨["my_first_database"], ["my_first_collection"],
       [[("name", Value.vstr "Amy"), ("_id", Value.vid 0)],
        [("name", Value.vstr "John"), ("address", Value.vstr "Highway 37"),
         ("_id", Value.vid 1)]], 2⟩).2
    [[("name", Value.vstr "Amy"), ("_id", Value.vid 0)]]
    [("name", Value.vstr "John"), ("address", Value.vstr "Highway 37"),
     ("_id", Value.vid 1)]
    [] (by decide) (by decide) (by decide)

/-! ### C6: delete of the first matching document -/

/-- C6.  When no document matches the query, the delete reports zero
deleted documents and leaves the collection unchanged.  When at least one
document matches — the collection splits as `pre ++ d :: post` with `d`
its first match — the delete reports a deleted count of 1, removes
exactly `d`, the remaining collection has exactly one fewer matching
document, and the non-matching documents are unchanged. -/
theorem delete_document_spec (q : Query) (st : DBState) :
    ((∀ e ∈ st.docs, Query.matches q e = false) →
      delete_document q st = (0, st))
    ∧ ∀ pre d post,
        st.docs = pre ++ d :: post →
        (∀ e ∈ pre, Query.matches q e = false) →
        Query.matches q d = true →
        delete_document q st = (1, { st with docs := pre ++ post })
        ∧ (pre ++ post).countP (fun e => Query.matches q e) + 1
            = st.docs.countP (fun e => Query.matches q e)
        ∧ (pre ++ post).filter (fun e => !Query.matches q e)
            = st.docs.filter (fun e => !Query.matches q e) := by
  constructor
  · intro h
    unfold delete_document
    rw [deleteFirst_eq_none q st.docs h]
  · intro pre d post hsplit hpre hd
    refine ⟨?_, ?_, ?_⟩
    · unfold delete_document
      rw [hsplit, deleteFirst_first q pre d post hpre hd]
    · rw [hsplit, List.countP_append, List.countP_append, List.countP_cons, hd]
      simp only [if_true]
      omega
    · rw [hsplit, List.filter_append, List.filter_append, List.filter_cons]
      rw [hd]
      rfl

/-- Witness for C6 at a concrete input: a three-document collection in
which the query `{"name": "John"}` matches the second and third document;
the delete removes exactly the second. -/
theorem delete_document_spec_witness :
    delete_document [("name", Value.vstr "John")]
        ⟨["my_first_database"], ["my_first_collection"],
         [[("name", Value.vstr "Amy")],
          [("name", Value.vstr "John"), ("address", Value.vstr "Highway 37")],
          [("name", Value.vstr "John"), ("address", Value.vstr "Canyon 123")]],
         0⟩
        = (1,
           { databaseNames := ["my_first_database"],
             collectionNames := ["my_first_collection"],
             docs := [[("name", Value.vstr "Amy")]]
               ++ [[("name", Value.vstr "John"),
                    ("address", Value.vstr "Canyon 123")]],
             nextId := 0 })
    ∧ ([[("name", Value.vstr "Amy")]]
        ++ [[("name", Value.vstr "John"),
             ("address", Value.vstr "Canyon 123")]]).countP
          (fun e => Query.matches [("name", Value.vstr "John")] e) + 1
        = ([[("name", Value.vstr "Amy")],
            [("name", Value.vstr "John"), ("address", Value.vstr "Highway 37")],
            [("name", Value.vstr "John"),
             ("address", Value.vstr "Canyon 123")]] : List Doc).countP
            (fun e => Query.matches [("name", Value.vstr "John")] e)
    ∧ ([[("name", Value.vstr "Amy")]]
        ++ [[("name", Value.vstr "John"),
             ("address", Value.vstr "Canyon 123")]]).filter
          (fun e => !Query.matches [("name", Value.vstr "John")] e)
        = ([[("name", Value.vstr "Amy")],
            [("name", Value.vstr "John"), ("address", Value.vstr "Highway 37")],
            [("name", Value.vstr "John"),
             ("address", Value.vstr "Canyon 123")]] : List Doc).filter
            (fun e => !Query.matches [("name", Value.vstr "John")] e) :=
  (delete_document_spec [("name", Value.vstr "John")]
      ⟨["my_first_database"], ["my_first_collection"],
       [[("name", Value.vstr "Amy")],
        [("name", Value.vstr "John"), ("address", Value.vstr "Highway 37")],
        [("name", Value.vstr "John"), ("address", Value.vstr "Canyon 123")]],
       0⟩).2
    [[("name", Value.vstr "Amy")]]
    [("name", Value.vstr "John"), ("address", Value.vstr "Highway 37")]
    [[("name", Value.vstr "John"), ("address", Value.vstr "Canyon 123")]]
    (by decide) (by decide) (by decide)

/-! ### C7: "not found" is not an error -/

/-- C7.  For a query matching no document, find-one reports no result,
and update and delete report a count of zero, each leaving the state
unchanged — none of the three fails. -/
theorem not_found_zero_results (q : Query) (st : DBState)
    (h : ∀ e ∈ st.docs, Query.matches q e = false) :
    (find_one_document q st).1 = none
    ∧ (∀ s, update_document q s st = (0, st))
    ∧ delete_document q st = (0, st) := by
  refine ⟨?_, ?_, ?_⟩
  · show st.docs.find? (fun d => Query.matches q d) = none
    exact List.find?_eq_none.mpr (by simpa using h)
  · intro s
    unfold update_document
    rw [updateFirst_eq_none q s st.docs h]
  · unfold delete_document
    rw [deleteFirst_eq_none q st.docs h]

/-- Witness for C7 at a concrete input: the query `{"name": "John"}` on a
collection that does not contain a John document. -/
theorem not_found_zero_results_witness :
    (find_one_document [("name", Value.vstr "John")]
        ⟨["my_first_database"], ["my_first_collection"],
         [[("name", Value.vstr "Amy"), ("address", Value.vstr "Apple st 652")]],
         1⟩).1 = none
    ∧ (∀ s, update_document [("name", Value.vstr "John")] s
        ⟨["my_first_database"], ["my_first_collection"],
         [[("name", Value.vstr "Amy"), ("address", Value.vstr "Apple st 652")]],
         1⟩
        = (0, ⟨["my_first_database"], ["my_first_collection"],
            [[("name", Value.vstr "Amy"),
              ("address", Value.vstr "Apple st 652")]], 1⟩))
    ∧ delete_document [("name", Value.vstr "John")]
        ⟨["my_first_database"], ["my_first_collection"],
         [[("name", Value.vstr "Amy"), ("address", Value.vstr "Apple st 652")]],
         1⟩
        = (0, ⟨["my_first_database"], ["my_first_collection"],
            [[("name", Value.vstr "Amy"),
              ("address", Value.vstr "Apple st 652")]], 1⟩) :=
  not_found_zero_results [("name", Value.vstr "John")]
    ⟨["my_first_database"], ["my_first_collection"],
     [[("name", Value.vstr "Amy"), ("address", Value.vstr "Apple st 652")]],
     1⟩
    (by decide)

/-! ### C8: limit returns the first N documents -/

/-- C8.  The limit operation returns a prefix of the collection in
store-native (insertion) order: the result has `min N (collection size)`
documents, its i-th document is the collection's i-th document for every
`i < N`, and appending the remaining documents recovers the collection —
in particular, when the collection holds at most `N` documents the result
is the whole collection. -/
theorem limit_results_first_n (n : Nat) (st : DBState) :
    (limit_results n st).1.length = min n st.docs.length
    ∧ (∀ i : Nat,
        ((limit_results n st).1)[i]? = if i < n then st.docs[i]? else none)
    ∧ (limit_results n st).1 ++ st.docs.drop n = st.docs := by
  refine ⟨?_, ?_, ?_⟩
  · show (st.docs.take n).length = _
    rw [List.length_take]
  · intro i
    show (st.docs.take n)[i]? = _
    rw [List.getElem?_take]
  · show st.docs.take n ++ st.docs.drop n = st.docs
    exact List.take_append_drop n st.docs

/-! ### C9: read-only operations do not change the state -/

/-- C9.  The database-exists check, the collection-exists check,
find-one, find-all, find-with-condition, sort, and limit all return the
state they were given: the collection's documents (hence their multiset)
are unchanged. -/
theorem read_only_ops_preserve_state (dbn cn : String) (q : Query)
    (f : String) (o : Int) (n : Nat) (st : DBState) :
    (check_database_exists dbn st).2 = st
    ∧ (check_collection_exists cn st).2 = st
    ∧ (find_one_document q st).2 = st
    ∧ (find_all_documents st).2 = st
    ∧ (find_documents_with_condition q st).2 = st
    ∧ (sort_documents_by_field f st o).2 = st
    ∧ (limit_results n st).2 = st := by
  refine ⟨rfl, rfl, rfl, rfl, rfl, ?_, rfl⟩
  unfold sort_documents_by_field
  split <;> rfl

end MongoDemo
